import Mathlib

/-!
Verification of the match-result extraction algorithm of `src/atp.py`
(`ATP.get_tournament_singles_results`, plus the leaf helpers it relies on).

The HTML page is abstracted to the values the xpath queries of the source
return: each `xpath(...)` call site becomes a field of an input structure
holding the list of strings (or sub-blocks) the query would produce.  The
Python control flow is embedded as total Lean functions; a Python exception
(IndexError from an out-of-range `[...]`, ValueError from `int(...)` /
`strptime` / tuple unpacking) becomes `Except.error`; `continue`-style
silent skipping of a match becomes an `Option.none` result for that match.
-/

/-- Python exception kinds raised by the extraction code. -/
inductive PyError where
  | indexError : PyError
  | valueError : PyError
deriving DecidableEq, Repr

instance {ε α : Type} [DecidableEq ε] [DecidableEq α] : DecidableEq (Except ε α) := fun x y =>
  match x, y with
  | .ok a, .ok b =>
    if h : a = b then isTrue (by rw [h]) else isFalse (by simp [h])
  | .error a, .error b =>
    if h : a = b then isTrue (by rw [h]) else isFalse (by simp [h])
  | .ok _, .error _ => isFalse (by simp)
  | .error _, .ok _ => isFalse (by simp)

/-! ## Python string primitives (stdlib collaborators, modelled explicitly) -/

/-- Drop leading and trailing whitespace from a character list
(model of Python `str.strip()`). -/
def stripChars (cs : List Char) : List Char :=
  ((cs.dropWhile Char.isWhitespace).reverse.dropWhile Char.isWhitespace).reverse

/-- Model of Python `str.strip()`. -/
def pyStrip (s : String) : String := String.mk (stripChars s.toList)

/-- Split a character list on a separator character; like Python
`str.split(sep)`, the result always has at least one (possibly empty) group,
and `[] ↦ [[]]`. -/
def splitChar (sep : Char) : List Char → List (List Char)
  | [] => [[]]
  | c :: cs =>
    let r := splitChar sep cs
    if c = sep then [] :: r
    else
      match r with
      | [] => [[c]]
      | g :: gs => (c :: g) :: gs

/-- Model of Python `str.split(sep)` for a one-character separator
(the source only splits on `'/'` and `':'`). -/
def pySplitChar (sep : Char) (s : String) : List String :=
  (splitChar sep s.toList).map String.mk

/-- Numeric value of a list of decimal digit characters. -/
def digitsVal (cs : List Char) : Nat :=
  cs.foldl (fun a c => 10 * a + (c.toNat - 48)) 0

/-- Model of Python `int(s)`: strip whitespace, optional sign, decimal
digits; `none` models the ValueError raised on any other shape. -/
def pyInt (s : String) : Option Int :=
  match stripChars s.toList with
  | [] => none
  | '-' :: ds =>
    if !ds.isEmpty && ds.all Char.isDigit then some (-(digitsVal ds : Int)) else none
  | '+' :: ds =>
    if !ds.isEmpty && ds.all Char.isDigit then some ((digitsVal ds : Int)) else none
  | ds =>
    if ds.all Char.isDigit then some ((digitsVal ds : Int)) else none

/-- Nonempty all-digit string to its value, else `none`. -/
def pyDigits (s : String) : Option Nat :=
  match s.toList with
  | [] => none
  | cs => if cs.all Char.isDigit then some (digitsVal cs) else none

/-! ## Dates (model of `datetime.strptime(date, '%a, %d %B, %Y').date()`) -/

/-- A calendar date as produced by `datetime.date`. -/
structure Date where
  year : Int
  month : Nat
  day : Nat
deriving DecidableEq, Repr

def weekdayAbbrevs : List String := ["Mon", "Tue", "Wed", "Thu", "Fri", "Sat", "Sun"]

def monthNames : List String :=
  ["January", "February", "March", "April", "May", "June",
   "July", "August", "September", "October", "November", "December"]

def isLeapYear (y : Int) : Bool :=
  (y % 4 == 0 && y % 100 != 0) || y % 400 == 0

def daysInMonth (y : Int) (m : Nat) : Nat :=
  if m = 2 then (if isLeapYear y then 29 else 28)
  else if m = 4 ∨ m = 6 ∨ m = 9 ∨ m = 11 then 30 else 31

/-- Modelled from the stdlib collaborator `datetime.strptime` with the fixed
format `'%a, %d %B, %Y'` used at the single call site (the `datetime` module
is not repository code).  The text must be
`<weekday abbrev>, <1-2 digit day> <full month name>, <1-4 digit year>` with
single spaces and exact-case English names, and the day must exist in the
month; any other text raises ValueError. -/
def parseDate (s : String) : Except PyError Date :=
  match pySplitChar ',' s with
  | [wd, dmon, yr] =>
    match pySplitChar ' ' dmon, yr.toList with
    | ["", dstr, mname], ' ' :: ychars =>
      match pyDigits dstr, monthNames.findIdx? (fun n => n == mname),
            pyDigits (String.mk ychars) with
      | some d, some mi, some y =>
        if weekdayAbbrevs.contains wd ∧ dstr.length ≤ 2 ∧ ychars.length ≤ 4
            ∧ 1 ≤ d ∧ d ≤ daysInMonth (Int.ofNat y) (mi + 1) ∧ 1 ≤ y ∧ y ≤ 9999 then
          .ok ⟨Int.ofNat y, mi + 1, d⟩
        else .error .valueError
      | _, _, _ => .error .valueError
    | _, _ => .error .valueError
  | _ => .error .valueError

/-! ## Data model (the NamedTuples of the source) -/

structure PlayerRef where
  id : String
  slug : String
deriving DecidableEq, Repr

structure TournamentRef where
  id : String
  slug : String
deriving DecidableEq, Repr

structure MatchRef where
  tournament_id : String
  year : Int
  match_id : String
deriving DecidableEq, Repr

/-- `MatchResult` of the source: field order follows the NamedTuple.
Slots that Python fills with `None` are `none`; a filled games slot is
`some g`, a filled tiebreak slot carries the element Python stored (which
is itself optional, so `none` also encodes "set had no tiebreak"). -/
structure MatchResult where
  match_ref : MatchRef
  date : Date
  duration : Option Int
  best_of : Nat
  winner : PlayerRef
  loser : PlayerRef
  w1 : Option Int
  w1_tb : Option Int
  w2 : Option Int
  w2_tb : Option Int
  w3 : Option Int
  w3_tb : Option Int
  w4 : Option Int
  w4_tb : Option Int
  w5 : Option Int
  w5_tb : Option Int
  l1 : Option Int
  l1_tb : Option Int
  l2 : Option Int
  l2_tb : Option Int
  l3 : Option Int
  l3_tb : Option Int
  l4 : Option Int
  l4_tb : Option Int
  l5 : Option Int
  l5_tb : Option Int
deriving DecidableEq, Repr

/-! ## Input document abstraction

Each structure field holds exactly what the corresponding xpath query of
`get_tournament_singles_results` would return on the page. -/

/-- One `div.score-item`: `spans` is the `span/text()` list. -/
structure ScoreItem where
  spans : List String
deriving DecidableEq, Repr

/-- One `div.stats-item` (competitor block): `nameHrefs` is the
`div.name/a/@href` list, `scoreItems` the `div.score-item` children,
`winnerMarker` the truthiness of the `div.winner` query. -/
structure PlayerInfo where
  nameHrefs : List String
  scoreItems : List ScoreItem
  winnerMarker : Bool
deriving DecidableEq, Repr

/-- One `div.match`: `headerSpan2` is the `div.match-header/span[2]/text()`
list, `statsItems` the competitor blocks. -/
structure MatchBlock where
  headerSpan2 : List String
  statsItems : List PlayerInfo
deriving DecidableEq, Repr

/-- One `div.atp_accordion-item` (day group): `dateTexts` is the
`div.tournament-day/h4/text()` list, `statsHrefs` the
`div.match-cta/a[text()="Stats"]/@href` list, `matchBlocks` the matches. -/
structure DayGroup where
  dateTexts : List String
  statsHrefs : List String
  matchBlocks : List MatchBlock
deriving DecidableEq, Repr

/-- The accordion of one tournament-results page. -/
structure PageDoc where
  days : List DayGroup
deriving DecidableEq, Repr

/-! ## The extraction algorithm -/

/-- Model of Python list indexing `xs[i]` (IndexError when out of range). -/
def pyIndex (e : PyError) : Option α → Except PyError α
  | some a => .ok a
  | none => .error e

/-- The `for ... in`-loop accumulation pattern of the source: apply `f` to
every element in order, propagating the first raised exception. -/
def exceptMapList (f : α → Except PyError β) : List α → Except PyError (List β)
  | [] => .ok []
  | a :: as =>
    match f a with
    | .error e => .error e
    | .ok b =>
      match exceptMapList f as with
      | .error e => .error e
      | .ok bs => .ok (b :: bs)

/-- Lines 196-200 of the source: the optional duration.  Exactly one text
node is required for the string to be considered present; a present string
is split on `':'` and destructured as `dur_hrs, dur_mins, _ = map(int, ...)`,
which raises ValueError unless there are exactly three integer parts.  The
reported value is `dur_hrs * 60 + dur_mins`. -/
def parseDuration (texts : List String) : Except PyError (Option Int) :=
  match texts with
  | [s] =>
    match pySplitChar ':' (pyStrip s) with
    | [a, b, c] =>
      match pyInt a, pyInt b, pyInt c with
      | some h, some m, some _ => .ok (some (h * 60 + m))
      | _, _, _ => .error .valueError
    | _ => .error .valueError
  | _ => .ok none

/-- Lines 208-219 of the source: the per-competitor score loop.  A
one-token entry contributes `(games, no tiebreak)`, a two-token entry
`(games, tiebreak)`; any other token count is skipped entirely (nothing is
appended to either list).  `int(...)` failure raises ValueError. -/
def parseSetScores : List ScoreItem → Except PyError (List Int × List (Option Int))
  | [] => .ok ([], [])
  | item :: rest =>
    match item.spans with
    | [a] =>
      match pyInt a with
      | none => .error .valueError
      | some g =>
        match parseSetScores rest with
        | .error e => .error e
        | .ok (s, t) => .ok (g :: s, none :: t)
    | [a, b] =>
      match pyInt a, pyInt b with
      | some g, some tb =>
        match parseSetScores rest with
        | .error e => .error e
        | .ok (s, t) => .ok (g :: s, some tb :: t)
      | _, _ => .error .valueError
    | _ => parseSetScores rest

/-- Lines 203-219 of the source, one competitor block: the `PlayerRef` is
built from segments 4 (id) and 3 (slug) of the profile href (unchecked
Python indexing: too few segments or no href raises IndexError), followed
by the score loop. -/
def parseStatsItem (p : PlayerInfo) : Except PyError (PlayerRef × List Int × List (Option Int)) :=
  match p.nameHrefs[0]? with
  | none => .error .indexError
  | some href =>
    match (pySplitChar '/' href)[4]?, (pySplitChar '/' href)[3]? with
    | some pid, some slug =>
      match parseSetScores p.scoreItems with
      | .error e => .error e
      | .ok st => .ok (⟨pid, slug⟩, st)
    | _, _ => .error .indexError

/-- Lines 202-222 of the source: `winner_idx` starts as `None` and is
overwritten with `i` for every enumerated block whose winner query is
truthy (so the LAST marked block wins). -/
def findWinnerIdxAux (acc : Option Nat) (i : Nat) : List PlayerInfo → Option Nat
  | [] => acc
  | info :: rest =>
    findWinnerIdxAux (if info.winnerMarker then some i else acc) (i + 1) rest

def findWinnerIdx (items : List PlayerInfo) : Option Nat :=
  findWinnerIdxAux none 0 items

/-! ## Set alignment and format inference (lines 227-235) -/

/-- The `zip` of line 228-230: winner games, loser games, winner tiebreaks,
truncated to the shortest. -/
def alignedSets (wsets lsets : List Int) (wtbs : List (Option Int)) :
    List ((Int × Int) × Option Int) :=
  (wsets.zip lsets).zip wtbs

/-- `sets_played`: the number of loop iterations of lines 228-232. -/
def setsPlayed (wsets lsets : List Int) (wtbs : List (Option Int)) : Nat :=
  (alignedSets wsets lsets wtbs).length

/-- Line 231 of the source: `wset >= lset or wtbs is not None`. -/
def setWonByVictor (x : (Int × Int) × Option Int) : Bool :=
  decide (x.1.1 ≥ x.1.2) || x.2.isSome

/-- `winner_won_sets`: the sum of the boolean of line 231 over the aligned
pairs. -/
def victorSetsWon (wsets lsets : List Int) (wtbs : List (Option Int)) : Nat :=
  (alignedSets wsets lsets wtbs).countP setWonByVictor

/-! ## Record assembly (lines 234-256) -/

/-- The data of one accepted match just before assembly: winner and loser
refs and their games / tiebreak sequences. -/
structure CoreData where
  wref : PlayerRef
  lref : PlayerRef
  wsets : List Int
  wtbs : List (Option Int)
  lsets : List Int
  ltbs : List (Option Int)
deriving DecidableEq, Repr

/-- `player_sets[...][i-1] if sets_played >= i else None`.  For parser
outputs the guarded index is always in bounds, so the `Option` returned by
the safe lookup coincides with the source's unchecked access. -/
def slotVal (sp : Nat) (xs : List Int) (i : Nat) : Option Int :=
  if i ≤ sp then xs[i - 1]? else none

/-- `player_tbs[...][i-1] if sets_played >= i else None`; the stored element
is itself optional, and `join` flattens the (always in-bounds for parser
outputs) safe lookup. -/
def slotTb (sp : Nat) (tbs : List (Option Int)) (i : Nat) : Option Int :=
  if i ≤ sp then (tbs[i - 1]?).join else none

/-- Lines 234-256: the `MatchResult(...)` constructor call. -/
def assembleRecord (mref : MatchRef) (date : Date) (dur : Option Int) (c : CoreData) :
    MatchResult :=
  let sp := setsPlayed c.wsets c.lsets c.wtbs
  ⟨mref, date, dur,
   if victorSetsWon c.wsets c.lsets c.wtbs = 2 then 3 else 5,
   c.wref, c.lref,
   slotVal sp c.wsets 1, slotTb sp c.wtbs 1,
   slotVal sp c.wsets 2, slotTb sp c.wtbs 2,
   slotVal sp c.wsets 3, slotTb sp c.wtbs 3,
   slotVal sp c.wsets 4, slotTb sp c.wtbs 4,
   slotVal sp c.wsets 5, slotTb sp c.wtbs 5,
   slotVal sp c.lsets 1, slotTb sp c.ltbs 1,
   slotVal sp c.lsets 2, slotTb sp c.ltbs 2,
   slotVal sp c.lsets 3, slotTb sp c.ltbs 3,
   slotVal sp c.lsets 4, slotTb sp c.ltbs 4,
   slotVal sp c.lsets 5, slotTb sp c.ltbs 5⟩

/-- Pack `players[winner_idx]` and `players[1-winner_idx]` with their score
lists into `CoreData`. -/
def mkCore (w l : PlayerRef × List Int × List (Option Int)) : CoreData :=
  ⟨w.1, l.1, w.2.1, w.2.2, l.2.1, l.2.2⟩

/-- Lines 202-225: parse all competitor blocks (exceptions propagate), then
apply the `len(players) != 2 or winner_idx is None` guard; `none` models the
silent `continue`. -/
def matchCore (mb : MatchBlock) : Except PyError (Option CoreData) :=
  match exceptMapList parseStatsItem mb.statsItems with
  | .error e => .error e
  | .ok parsed =>
    match parsed, findWinnerIdx mb.statsItems with
    | [p0, p1], some widx =>
      .ok (some (mkCore (if widx = 1 then p1 else p0) (if widx = 1 then p0 else p1)))
    | _, _ => .ok none

/-- One iteration of the `for match in ...` loop (lines 195-256): duration
first, then competitor parsing, guard, and assembly. -/
def parseMatch (mref : MatchRef) (date : Date) (mb : MatchBlock) :
    Except PyError (Option MatchResult) :=
  match parseDuration mb.headerSpan2 with
  | .error e => .error e
  | .ok dur =>
    match matchCore mb with
    | .error e => .error e
    | .ok none => .ok none
    | .ok (some c) => .ok (some (assembleRecord mref date dur c))

/-- One iteration of the `for tday in ...` loop (lines 187-256): date text
(unchecked `[0]`), strptime, Stats href (unchecked `[0]`), match id as the
last `'/'`-segment, then all matches of the day.  `getLast?.getD ""` is
Python's `[-1]` on a split result, which is never empty. -/
def parseDay (tid : String) (year : Int) (day : DayGroup) :
    Except PyError (List MatchResult) :=
  match day.dateTexts[0]? with
  | none => .error .indexError
  | some dtext =>
    match parseDate (pyStrip dtext) with
    | .error e => .error e
    | .ok date =>
      match day.statsHrefs[0]? with
      | none => .error .indexError
      | some href =>
        let mid := ((pySplitChar '/' href).getLast?).getD ""
        let mref : MatchRef := ⟨tid, year, mid⟩
        match exceptMapList (parseMatch mref date) day.matchBlocks with
        | .error e => .error e
        | .ok results => .ok results.reduceOption

/-- Lines 180-257: the whole extraction.  Any exception in any day aborts
the call; otherwise the per-day record lists are concatenated in document
order. -/
def getTournamentSinglesResults (t : TournamentRef) (year : Int) (page : PageDoc) :
    Except PyError (List MatchResult) :=
  match exceptMapList (parseDay t.id year) page.days with
  | .error e => .error e
  | .ok dayResults => .ok dayResults.flatten

/-- Slot accessor: winner games of set `i` (1-indexed, `none` off-range). -/
def MatchResult.wslot (r : MatchResult) : Nat → Option Int
  | 1 => r.w1
  | 2 => r.w2
  | 3 => r.w3
  | 4 => r.w4
  | 5 => r.w5
  | _ => none

/-- Slot accessor: loser games of set `i` (1-indexed, `none` off-range). -/
def MatchResult.lslot (r : MatchResult) : Nat → Option Int
  | 1 => r.l1
  | 2 => r.l2
  | 3 => r.l3
  | 4 => r.l4
  | 5 => r.l5
  | _ => none

/-! ## Concrete inputs and their extraction results, used in the theorems -/

def hrefA : String := "/en/players/alpha/a001/overview"

def hrefB : String := "/en/players/beta/b002/overview"

def prA : PlayerRef := ⟨"a001", "alpha"⟩

def prB : PlayerRef := ⟨"b002", "beta"⟩

/-- Competitor block of player A: sets 6 and 7, tiebreak 3 on the second
set, winner marker present. -/
def itemA : PlayerInfo := ⟨[hrefA], [⟨["6"]⟩, ⟨["7", "3"]⟩], true⟩

/-- Competitor block of player B: sets 4 and 6, no winner marker. -/
def itemB : PlayerInfo := ⟨[hrefB], [⟨["4"]⟩, ⟨["6"]⟩], false⟩

/-- A fully well-formed match block (the spec's Scenario B data). -/
def mbA : MatchBlock := ⟨["1:45:30"], [itemA, itemB]⟩

def mref0 : MatchRef := ⟨"339", 2024, "ms001"⟩

def date0 : Date := ⟨2024, 1, 15⟩

def tref0 : TournamentRef := ⟨"339", "brisbane"⟩

/-- The intermediate data `matchCore` computes for `mbA`. -/
def coreA : CoreData := ⟨prA, prB, [6, 7], [none, some 3], [4, 6], [none, none]⟩

/-- The record the extraction emits for `mbA`. -/
def recA : MatchResult :=
  ⟨mref0, date0, some 105, 3, prA, prB,
   some 6, none, some 7, some 3, none, none, none, none, none, none,
   some 4, none, some 6, none, none, none, none, none, none, none⟩

/-- A match whose two competitor blocks carry the SAME player href. -/
def mbC4 : MatchBlock := ⟨[], [⟨[hrefA], [⟨["6"]⟩], true⟩, ⟨[hrefA], [⟨["4"]⟩], false⟩]⟩

/-- The record emitted for `mbC4`: its winner and loser coincide. -/
def recC4 : MatchResult :=
  ⟨mref0, date0, none, 5, prA, prA,
   some 6, none, none, none, none, none, none, none, none, none,
   some 4, none, none, none, none, none, none, none, none, none⟩

/-- A match with six score items on each side. -/
def mbC5 : MatchBlock :=
  ⟨[], [⟨[hrefA], [⟨["7"]⟩, ⟨["7"]⟩, ⟨["7"]⟩, ⟨["7"]⟩, ⟨["7"]⟩, ⟨["7"]⟩], true⟩,
        ⟨[hrefB], [⟨["5"]⟩, ⟨["5"]⟩, ⟨["5"]⟩, ⟨["5"]⟩, ⟨["5"]⟩, ⟨["5"]⟩], false⟩]⟩

/-- The intermediate data `matchCore` computes for `mbC5`. -/
def coreC5 : CoreData :=
  ⟨prA, prB, [7, 7, 7, 7, 7, 7], [none, none, none, none, none, none],
   [5, 5, 5, 5, 5, 5], [none, none, none, none, none, none]⟩

/-- A match where BOTH competitor blocks carry the winner marker. -/
def mbC9 : MatchBlock := ⟨[], [itemA, ⟨[hrefB], [⟨["4"]⟩, ⟨["6"]⟩], true⟩]⟩

/-- The record emitted for `mbC9`: the LAST marked block (player B) is
taken as the winner. -/
def recC9 : MatchResult :=
  ⟨mref0, date0, none, 5, prB, prA,
   some 4, none, some 6, none, none, none, none, none, none, none,
   some 6, none, some 7, some 3, none, none, none, none, none, none⟩

/-- A match whose winner block has a three-token score entry followed by a
good entry, against a loser block with two good entries. -/
def mbC10 : MatchBlock := ⟨[], [⟨[hrefA], [⟨["1", "2", "3"]⟩, ⟨["6"]⟩], true⟩, itemB]⟩

/-- The record emitted for `mbC10`: the winner's good entry slides into
slot 1 and the loser's second entry is lost with it. -/
def recC10 : MatchResult :=
  ⟨mref0, date0, none, 5, prA, prB,
   some 6, none, none, none, none, none, none, none, none, none,
   some 4, none, none, none, none, none, none, none, none, none⟩

/-- A day group that parses end to end. -/
def dayGood : DayGroup := ⟨["Mon, 15 January, 2024"], ["stats/ms001"], [mbA]⟩

/-- A day group whose date text does not match the strptime pattern. -/
def dayBad : DayGroup := ⟨["nonsense date"], ["stats/ms999"], []⟩

/-- A day group with a good date but no Stats link. -/
def dayNoStats : DayGroup := ⟨["Mon, 15 January, 2024"], [], []⟩

/-- `parseStatsItem` output for `itemA`. -/
def parsedA : PlayerRef × List Int × List (Option Int) := (prA, [6, 7], [none, some 3])

/-- `parseStatsItem` output for `itemB`. -/
def parsedB : PlayerRef × List Int × List (Option Int) := (prB, [4, 6], [none, none])

/-- A match block exposing three competitor sub-blocks. -/
def mbThree : MatchBlock := ⟨[], [itemA, itemB, itemB]⟩

/-! ## Helper lemmas -/

/-- The score loop appends to `sets` and `tiebreaks` in lockstep, so the
two lists it produces always have equal length. -/
theorem parseSetScores_length :
    ∀ (items : List ScoreItem) (s : List Int) (t : List (Option Int)),
      parseSetScores items = .ok (s, t) → s.length = t.length := by
  intro items
  induction items with
  | nil =>
    intro s t h
    simp only [parseSetScores, Except.ok.injEq, Prod.mk.injEq] at h
    rw [← h.1, ← h.2]
    rfl
  | cons item rest ih =>
    intro s t h
    unfold parseSetScores at h
    split at h
    · split at h
      · simp at h
      · split at h
        · simp at h
        · rename_i g s1 t1 hrest
          simp only [Except.ok.injEq, Prod.mk.injEq] at h
          rw [← h.1, ← h.2]
          simp [ih s1 t1 hrest]
    · split at h
      · split at h
        · simp at h
        · rename_i g tb s1 t1 hrest
          simp only [Except.ok.injEq, Prod.mk.injEq] at h
          rw [← h.1, ← h.2]
          simp [ih s1 t1 hrest]
      · simp at h
    · exact ih s t h

/-- Every element of a successful `exceptMapList` run comes from some input
element. -/
theorem exceptMapList_mem {f : α → Except PyError β} :
    ∀ {as : List α} {bs : List β}, exceptMapList f as = .ok bs →
      ∀ b ∈ bs, ∃ a ∈ as, f a = .ok b := by
  intro as
  induction as with
  | nil =>
    intro bs h b hb
    simp only [exceptMapList, Except.ok.injEq] at h
    rw [← h] at hb
    simp at hb
  | cons a rest ih =>
    intro bs h b hb
    unfold exceptMapList at h
    cases hfa : f a <;> rw [hfa] at h
    · simp at h
    · cases hrest : exceptMapList f rest <;> rw [hrest] at h
      · simp at h
      · rename_i b0 bs0
        simp only [Except.ok.injEq] at h
        rw [← h] at hb
        rcases List.mem_cons.mp hb with hb | hb
        · exact ⟨a, by simp, by rw [hfa, hb]⟩
        · obtain ⟨a1, ha1, hfa1⟩ := ih hrest b hb
          exact ⟨a1, by simp [ha1], hfa1⟩

/-- A successfully parsed competitor block has equally long games and
tiebreak lists. -/
theorem parseStatsItem_lengths {p : PlayerInfo}
    {q : PlayerRef × List Int × List (Option Int)}
    (h : parseStatsItem p = .ok q) : q.2.1.length = q.2.2.length := by
  unfold parseStatsItem at h
  split at h
  · simp at h
  · split at h
    · split at h
      · simp at h
      · rename_i st hscores
        simp only [Except.ok.injEq] at h
        rw [← h]
        exact parseSetScores_length p.scoreItems st.1 st.2 hscores
    · simp at h

/-- Inversion of `parseMatch` on an emitted record. -/
theorem parseMatch_ok_elim {mref : MatchRef} {date : Date} {mb : MatchBlock}
    {r : MatchResult} (h : parseMatch mref date mb = .ok (some r)) :
    ∃ dur c, parseDuration mb.headerSpan2 = .ok dur ∧ matchCore mb = .ok (some c) ∧
      r = assembleRecord mref date dur c := by
  unfold parseMatch at h
  split at h
  · simp at h
  · rename_i dur hdur
    split at h
    · simp at h
    · simp at h
    · rename_i c hcore
      simp only [Except.ok.injEq, Option.some.injEq] at h
      exact ⟨dur, c, hdur, hcore, h.symm⟩

/-- The `CoreData` accepted by `matchCore` has lockstep games/tiebreak
lists on both sides. -/
theorem matchCore_lengths {mb : MatchBlock} {c : CoreData}
    (h : matchCore mb = .ok (some c)) :
    c.wtbs.length = c.wsets.length ∧ c.ltbs.length = c.lsets.length := by
  unfold matchCore at h
  split at h
  · simp at h
  · rename_i parsed hparsed
    split at h
    · rename_i p0 p1 widx hwidx
      obtain ⟨a0, _, hfa0⟩ := exceptMapList_mem hparsed p0 (by simp)
      obtain ⟨a1, _, hfa1⟩ := exceptMapList_mem hparsed p1 (by simp)
      have hp0 := parseStatsItem_lengths hfa0
      have hp1 := parseStatsItem_lengths hfa1
      simp only [Except.ok.injEq, Option.some.injEq] at h
      rw [← h]
      by_cases hwi : widx = 1 <;> simp [hwi, mkCore, hp0, hp1]
    · simp at h

/-- The aligned length never exceeds the winner's games list. -/
theorem setsPlayed_le_wsets (ws ls : List Int) (wt : List (Option Int)) :
    setsPlayed ws ls wt ≤ ws.length := by
  simp only [setsPlayed, alignedSets, List.length_zip]
  omega

/-- The aligned length never exceeds the loser's games list. -/
theorem setsPlayed_le_lsets (ws ls : List Int) (wt : List (Option Int)) :
    setsPlayed ws ls wt ≤ ls.length := by
  simp only [setsPlayed, alignedSets, List.length_zip]
  omega

/-- A slot guarded by `sp` is absent exactly when its index exceeds `sp`,
provided `sp` is within the backing list (always true for parser data). -/
theorem slotVal_eq_none_iff {sp i : Nat} {xs : List Int}
    (hlen : sp ≤ xs.length) (h1 : 1 ≤ i) :
    slotVal sp xs i = none ↔ sp < i := by
  unfold slotVal
  by_cases hc : i ≤ sp
  · have hb : i - 1 < xs.length := by omega
    simp only [hc, if_true, List.getElem?_eq_getElem hb]
    simp
    omega
  · simp only [hc, if_false]
    simp
    omega

/-! ## Claim theorems -/

/-- Claim C1 (confirmed): for every match with a determined winner, an
aligned set pair counts as won by the victor exactly when the victor's
games-won value is at least the opponent's or the victor's slot carries a
non-absent tiebreak, and `victor_sets_won` is the count of such pairs;
in particular, for victor sets `[(6, none), (7, 3)]` against opponent sets
`[(4, none), (6, none)]`, `sets_played = 2` and `victor_sets_won = 2`. -/
theorem c1_set_classification :
    (∀ (ws ls : List Int) (wt : List (Option Int)),
        victorSetsWon ws ls wt =
          (alignedSets ws ls wt).countP (fun x => decide (x.1.1 ≥ x.1.2 ∨ x.2 ≠ none)))
    ∧ setsPlayed [6, 7] [4, 6] [none, some 3] = 2
    ∧ victorSetsWon [6, 7] [4, 6] [none, some 3] = 2 := by
  refine ⟨fun ws ls wt => ?_, by decide, by decide⟩
  have hfun : setWonByVictor = fun x : (Int × Int) × Option Int =>
      decide (x.1.1 ≥ x.1.2 ∨ x.2 ≠ none) := by
    funext x
    rcases x with ⟨⟨a, b⟩, tb⟩
    cases tb <;> simp [setWonByVictor]
  rw [victorSetsWon, hfun]

/-- Claim C2 (confirmed): every emitted record has `best_of = 3` when the
victor's counted set wins equal 2 and `best_of = 5` otherwise, hence
`best_of` is always 3 or 5. -/
theorem c2_best_of_rule (mref : MatchRef) (date : Date) (mb : MatchBlock)
    (r : MatchResult) (h : parseMatch mref date mb = .ok (some r)) :
    (r.best_of = 3 ∨ r.best_of = 5)
    ∧ ∀ c : CoreData, matchCore mb = .ok (some c) →
        r.best_of = if victorSetsWon c.wsets c.lsets c.wtbs = 2 then 3 else 5 := by
  obtain ⟨dur, c0, hdur, hcore, hr⟩ := parseMatch_ok_elim h
  have hbo : r.best_of = if victorSetsWon c0.wsets c0.lsets c0.wtbs = 2 then 3 else 5 := by
    rw [hr]
    rfl
  constructor
  · rw [hbo]
    split <;> simp
  · intro c hc
    rw [hcore] at hc
    simp only [Except.ok.injEq, Option.some.injEq] at hc
    rw [← hc]
    exact hbo

/-- Witness for C2 at the concrete match block `mbA`. -/
theorem c2_best_of_rule_witness :
    parseMatch mref0 date0 mbA = .ok (some recA)
    ∧ (recA.best_of = 3 ∨ recA.best_of = 5) := by
  have hp : parseMatch mref0 date0 mbA = .ok (some recA) := by decide
  exact ⟨hp, (c2_best_of_rule mref0 date0 mbA recA hp).1⟩

/-- Claim C3 (confirmed): in every emitted record, the winner's set-i games
slot is absent iff the loser's is absent iff `i` exceeds the number of
aligned sets; slots beyond `sets_played` are absent on both sides, never
zero. -/
theorem c3_slot_population (mref : MatchRef) (date : Date) (mb : MatchBlock)
    (r : MatchResult) (c : CoreData)
    (hm : parseMatch mref date mb = .ok (some r))
    (hc : matchCore mb = .ok (some c))
    (i : Nat) (h1 : 1 ≤ i) (h5 : i ≤ 5) :
    ((r.wslot i = none) ↔ (r.lslot i = none))
    ∧ ((r.wslot i = none) ↔ setsPlayed c.wsets c.lsets c.wtbs < i)
    ∧ (setsPlayed c.wsets c.lsets c.wtbs < i → r.wslot i = none ∧ r.lslot i = none) := by
  obtain ⟨dur, c0, hdur, hcore, hr⟩ := parseMatch_ok_elim hm
  rw [hcore] at hc
  simp only [Except.ok.injEq, Option.some.injEq] at hc
  rw [← hc] at *
  have hw := setsPlayed_le_wsets c0.wsets c0.lsets c0.wtbs
  have hl := setsPlayed_le_lsets c0.wsets c0.lsets c0.wtbs
  have key : r.wslot i = slotVal (setsPlayed c0.wsets c0.lsets c0.wtbs) c0.wsets i
      ∧ r.lslot i = slotVal (setsPlayed c0.wsets c0.lsets c0.wtbs) c0.lsets i := by
    rw [hr]
    interval_cases i <;> exact ⟨rfl, rfl⟩
  rw [key.1, key.2, slotVal_eq_none_iff hw h1, slotVal_eq_none_iff hl h1]
  exact ⟨Iff.rfl, Iff.rfl, fun hlt => ⟨hlt, hlt⟩⟩

/-- Witness for C3 at the concrete match block `mbA` and slot 1. -/
theorem c3_slot_population_witness :
    parseMatch mref0 date0 mbA = .ok (some recA)
    ∧ ((recA.wslot 1 = none) ↔ (recA.lslot 1 = none)) := by
  have hp : parseMatch mref0 date0 mbA = .ok (some recA) := by decide
  have hc : matchCore mbA = .ok (some coreA) := by decide
  exact ⟨hp, (c3_slot_population mref0 date0 mbA recA coreA hp hc 1
    (by decide) (by decide)).1⟩

/-- Counterexample to claim C4: a document whose two competitor blocks
carry the same player href yields an emitted record whose winner and loser
are EQUAL, so winner-loser distinctness does not hold over every input
document. -/
theorem c4_winner_loser_cex :
    parseMatch mref0 date0 mbC4 = .ok (some recC4) ∧ recC4.winner = recC4.loser := by
  exact ⟨by decide, by decide⟩

/-- Claim C4 (amended): the winner and loser of an emitted record are the
refs extracted from the two competitor blocks (winner-marked block first);
they are distinct exactly when those two extracted refs differ — the code
performs no distinctness check of its own. -/
theorem c4_winner_loser_amended (mref : MatchRef) (date : Date) (mb : MatchBlock)
    (r : MatchResult) (c : CoreData)
    (hm : parseMatch mref date mb = .ok (some r))
    (hc : matchCore mb = .ok (some c)) :
    r.winner = c.wref ∧ r.loser = c.lref
    ∧ (c.wref ≠ c.lref → r.winner ≠ r.loser) := by
  obtain ⟨dur, c0, hdur, hcore, hr⟩ := parseMatch_ok_elim hm
  rw [hcore] at hc
  simp only [Except.ok.injEq, Option.some.injEq] at hc
  rw [← hc]
  have hwin : r.winner = c0.wref := by rw [hr]; rfl
  have hlos : r.loser = c0.lref := by rw [hr]; rfl
  refine ⟨hwin, hlos, fun hne heq => hne ?_⟩
  rw [← hwin, ← hlos]
  exact heq

/-- Witness for the amended C4 at the concrete match block `mbA`. -/
theorem c4_winner_loser_amended_witness :
    parseMatch mref0 date0 mbA = .ok (some recA) ∧ recA.winner ≠ recA.loser := by
  have hp : parseMatch mref0 date0 mbA = .ok (some recA) := by decide
  have hc : matchCore mbA = .ok (some coreA) := by decide
  exact ⟨hp, (c4_winner_loser_amended mref0 date0 mbA recA coreA hp hc).2.2 (by decide)⟩

/-- Counterexample to claim C5: a match carrying six aligned score pairs is
accepted and its aligned length `sets_played` is 6, outside the claimed
range 0..5. -/
theorem c5_sets_played_cex :
    matchCore mbC5 = .ok (some coreC5)
    ∧ setsPlayed coreC5.wsets coreC5.lsets coreC5.wtbs = 6
    ∧ ¬(setsPlayed coreC5.wsets coreC5.lsets coreC5.wtbs ≤ 5) := by
  exact ⟨by decide, by decide, by decide⟩

/-- Claim C5 (amended): the two set sequences are aligned pairwise up to the
shorter length, trailing unmatched entries are ignored — `sets_played` is
exactly the minimum of the two lengths — but the code does not clamp it to
5: it stays within 0..5 only when the winner's sequence has at most five
entries. -/
theorem c5_sets_played_amended (mb : MatchBlock) (c : CoreData)
    (hc : matchCore mb = .ok (some c)) :
    setsPlayed c.wsets c.lsets c.wtbs = min c.wsets.length c.lsets.length
    ∧ (c.wsets.length ≤ 5 → setsPlayed c.wsets c.lsets c.wtbs ≤ 5) := by
  obtain ⟨hw, hl⟩ := matchCore_lengths hc
  constructor
  · simp only [setsPlayed, alignedSets, List.length_zip, hw]
    omega
  · intro h
    have := setsPlayed_le_wsets c.wsets c.lsets c.wtbs
    omega

/-- Witness for the amended C5 at the concrete match block `mbA`. -/
theorem c5_sets_played_amended_witness :
    matchCore mbA = .ok (some coreA)
    ∧ setsPlayed coreA.wsets coreA.lsets coreA.wtbs
        = min coreA.wsets.length coreA.lsets.length := by
  have hc : matchCore mbA = .ok (some coreA) := by decide
  exact ⟨hc, (c5_sets_played_amended mbA coreA hc).1⟩

/-- Counterexample to claim C6: a day group with a well-formed date but no
"Stats" link does NOT parse to records with an empty match id — the
unchecked `stats_href[0]` raises IndexError, and the whole page extraction
aborts with it. -/
theorem c6_missing_stats_cex :
    parseDay "339" 2024 dayNoStats = .error .indexError
    ∧ getTournamentSinglesResults tref0 2024 ⟨[dayNoStats]⟩ = .error .indexError := by
  exact ⟨by decide, by decide⟩

/-- Claim C6 (amended): a day group whose date parses but which contains no
"Stats" link fails with an IndexError from the unchecked first-element
access; the day group does not parse and no empty match-reference token is
produced. -/
theorem c6_missing_stats_amended (tid : String) (y : Int) (d : DayGroup)
    (s : String) (dt : Date)
    (h0 : d.dateTexts[0]? = some s) (h1 : parseDate (pyStrip s) = .ok dt)
    (h2 : d.statsHrefs = []) :
    parseDay tid y d = .error .indexError := by
  unfold parseDay
  rw [h0, h2]
  simp [h1]

/-- Witness for the amended C6 at the concrete day group `dayNoStats`. -/
theorem c6_missing_stats_amended_witness :
    parseDay "339" 2024 dayNoStats = .error .indexError :=
  c6_missing_stats_amended "339" 2024 dayNoStats "Mon, 15 January, 2024"
    ⟨2024, 1, 15⟩ (by decide) (by decide) (by decide)

/-- Counterexample to claim C7: a present but malformed duration string
("0:3" has only two colon-separated parts) raises ValueError instead of
degrading to an absent duration. -/
theorem c7_duration_cex :
    parseDuration ["0:3"] = .error .valueError
    ∧ parseDuration ["0:3"] ≠ .ok none := by
  exact ⟨by decide, by decide⟩

/-- Claim C7 (amended): when the duration position holds exactly one string
that splits on `':'` into three integer parts `H`, `MM`, `SS`, the duration
is `H*60+MM`; when the position does not hold exactly one string the
duration is absent (never zero); but a PRESENT string that does not split
into three parts raises ValueError — a malformed duration is a hard error,
not a degradation to absent. -/
theorem c7_duration_amended :
    (∀ (s a b c : String) (h m x : Int),
        pySplitChar ':' (pyStrip s) = [a, b, c] →
        pyInt a = some h → pyInt b = some m → pyInt c = some x →
        parseDuration [s] = .ok (some (h * 60 + m)))
    ∧ (∀ texts : List String, texts.length ≠ 1 → parseDuration texts = .ok none)
    ∧ (∀ s : String, (pySplitChar ':' (pyStrip s)).length ≠ 3 →
        parseDuration [s] = .error .valueError) := by
  refine ⟨?_, ?_, ?_⟩
  · intro s a b c h m x hsplit ha hb hx
    simp only [parseDuration]
    rw [hsplit]
    simp [ha, hb, hx]
  · intro texts hlen
    rcases texts with _ | ⟨s, _ | ⟨t, ts⟩⟩
    · rfl
    · exact absurd rfl hlen
    · rfl
  · intro s hlen
    simp only [parseDuration]
    rcases hsp : pySplitChar ':' (pyStrip s) with _ | ⟨a, _ | ⟨b, _ | ⟨c, _ | tl⟩⟩⟩
    · simp
    · simp
    · simp
    · rw [hsp] at hlen
      simp at hlen
    · simp

/-- Witness for the amended C7 on concrete inputs. -/
theorem c7_duration_amended_witness :
    parseDuration ["1:45:30"] = .ok (some 105)
    ∧ parseDuration [] = .ok none
    ∧ parseDuration ["abc"] = .error .valueError := by
  refine ⟨?_, c7_duration_amended.2.1 [] (by decide),
          c7_duration_amended.2.2 "abc" (by decide)⟩
  have h := c7_duration_amended.1 "1:45:30" "1" "45" "30" 1 45 30
    (by decide) (by decide) (by decide) (by decide)
  have heq : (1 : Int) * 60 + 45 = 105 := by norm_num
  rw [heq] at h
  exact h

/-- Counterexample to claim C8: a page whose first day group has an
unparseable date yields NO records at all — the error is fatal to the whole
page, even though the second day group alone parses to a record. -/
theorem c8_date_error_cex :
    getTournamentSinglesResults tref0 2024 ⟨[dayBad, dayGood]⟩ = .error .valueError
    ∧ getTournamentSinglesResults tref0 2024 ⟨[dayGood]⟩ = .ok [recA] := by
  exact ⟨by decide, by decide⟩

/-- Claim C8 (amended): a day group whose displayed date string does not
match the fixed pattern makes the WHOLE page extraction fail with the date
error: no later day group is processed and no records are returned. -/
theorem c8_date_error_amended (t : TournamentRef) (y : Int) (d : DayGroup)
    (rest : List DayGroup) (s : String)
    (h0 : d.dateTexts[0]? = some s)
    (h1 : parseDate (pyStrip s) = .error .valueError) :
    getTournamentSinglesResults t y ⟨d :: rest⟩ = .error .valueError := by
  have hd : parseDay t.id y d = .error .valueError := by
    unfold parseDay
    rw [h0]
    simp [h1]
  unfold getTournamentSinglesResults exceptMapList
  rw [hd]

/-- Witness for the amended C8 at the concrete bad day group. -/
theorem c8_date_error_amended_witness :
    getTournamentSinglesResults tref0 2024 ⟨[dayBad]⟩ = .error .valueError :=
  c8_date_error_amended tref0 2024 dayBad [] "nonsense date" (by decide) (by decide)

/-- Counterexample to claim C9: a match block in which BOTH competitor
blocks carry the winner marker is NOT discarded — a record is emitted, with
the last marked block taken as the winner. -/
theorem c9_ambiguous_winner_cex :
    parseMatch mref0 date0 mbC9 = .ok (some recC9)
    ∧ parseMatch mref0 date0 mbC9 ≠ .ok none := by
  exact ⟨by decide, by decide⟩

/-- Claim C9 (amended): provided the duration and the competitor blocks
themselves parse, a match block whose competitor count is not two or in
which NO block carries the winner marker is discarded silently (it yields
no record and raises nothing); but marker ambiguity is not detected: when
the second of two blocks carries the marker — in particular when both do —
the match is emitted with that last marked block as the winner. -/
theorem c9_discard_amended :
    (∀ (mref : MatchRef) (date : Date) (mb : MatchBlock) (dur : Option Int)
        (ps : List (PlayerRef × List Int × List (Option Int))),
        parseDuration mb.headerSpan2 = .ok dur →
        exceptMapList parseStatsItem mb.statsItems = .ok ps →
        (ps.length ≠ 2 ∨ findWinnerIdx mb.statsItems = none) →
        parseMatch mref date mb = .ok none)
    ∧ (∀ (mref : MatchRef) (date : Date) (mb : MatchBlock) (dur : Option Int)
        (i0 i1 : PlayerInfo) (p0 p1 : PlayerRef × List Int × List (Option Int)),
        parseDuration mb.headerSpan2 = .ok dur →
        mb.statsItems = [i0, i1] → i1.winnerMarker = true →
        parseStatsItem i0 = .ok p0 → parseStatsItem i1 = .ok p1 →
        parseMatch mref date mb = .ok (some (assembleRecord mref date dur (mkCore p1 p0)))) := by
  constructor
  · intro mref date mb dur ps hdur hps hcond
    unfold parseMatch
    rw [hdur]
    unfold matchCore
    rw [hps]
    rcases ps with _ | ⟨q0, _ | ⟨q1, _ | ⟨q2, qs⟩⟩⟩
    · simp
    · simp
    · rcases hcond with hlen | hnone
      · exact absurd rfl hlen
      · rw [hnone]
    · cases findWinnerIdx mb.statsItems <;> simp
  · intro mref date mb dur i0 i1 p0 p1 hdur hitems hm1 hp0 hp1
    have hmap : exceptMapList parseStatsItem mb.statsItems = .ok [p0, p1] := by
      rw [hitems]
      unfold exceptMapList
      rw [hp0]
      unfold exceptMapList
      rw [hp1]
      rfl
    have hwidx : findWinnerIdx mb.statsItems = some 1 := by
      rw [hitems]
      unfold findWinnerIdx findWinnerIdxAux
      unfold findWinnerIdxAux
      rw [hm1]
      rfl
    unfold parseMatch
    rw [hdur]
    unfold matchCore
    rw [hmap, hwidx]
    simp

/-- Witness for the amended C9: a match block with three competitor
sub-blocks yields nothing and raises nothing. -/
theorem c9_discard_amended_witness :
    parseMatch mref0 date0 mbThree = .ok none :=
  c9_discard_amended.1 mref0 date0 mbThree none [parsedA, parsedB, parsedB]
    (by decide) (by decide) (by decide)

/-- Counterexample to claim C10: with winner entries
`[["1","2","3"], ["6"]]` against loser entries `[["4"], ["6"]]`, the
three-token entry leaves NO gap at its position — the later `6` slides into
slot 1 (paired against the loser's `4`), and the loser's second entry is
dropped from the record as well, so more than that single set slot is
lost. -/
theorem c10_token_count_cex :
    parseSetScores [⟨["1", "2", "3"]⟩, ⟨["6"]⟩] = .ok ([6], [none])
    ∧ parseMatch mref0 date0 mbC10 = .ok (some recC10)
    ∧ recC10.w1 = some 6 ∧ recC10.w2 = none ∧ recC10.l2 = none := by
  exact ⟨by decide, by decide, by decide, by decide, by decide⟩

/-- Claim C10 (amended): a score entry whose token count is neither one nor
two is skipped without error, contributing nothing to either score list —
its slot is not preserved as a gap, so subsequent entries shift into
earlier slots (which can also drop the opponent's trailing aligned
entries); the match is still assembled from whatever remains. -/
theorem c10_token_count_amended (spans : List String) (rest : List ScoreItem)
    (h1 : spans.length ≠ 1) (h2 : spans.length ≠ 2) :
    parseSetScores (⟨spans⟩ :: rest) = parseSetScores rest := by
  rcases spans with _ | ⟨a, _ | ⟨b, tl⟩⟩
  · rfl
  · exact absurd rfl h1
  · rcases tl with _ | ⟨c, tl2⟩
    · exact absurd rfl h2
    · rfl

/-- Witness for the amended C10 on a concrete three-token entry. -/
theorem c10_token_count_amended_witness :
    parseSetScores [⟨["7", "8", "9"]⟩, ⟨["6"]⟩] = parseSetScores [⟨["6"]⟩] :=
  c10_token_count_amended ["7", "8", "9"] [⟨["6"]⟩] (by decide) (by decide)
